import Mathlib

/-!
Shallow embedding of the MilkerFun on-chain program
(`programs/milkerfun/src/lib.rs`) and verification of its specification.

Modelling conventions:
* `u64` values are `Nat` together with explicit overflow checks against
  `U64_MAX` (mirroring Rust's `checked_add` / `checked_mul` / `checked_sub`);
  `i64` timestamps are `Int`, with Rust's truncating division rendered as
  `Int.tdiv`.
* Fallible code returns `Except ErrorCode _`; the `?` operator becomes an
  explicit `match`.
* The two `f64` curve functions (`calculate_cow_price`,
  `calculate_reward_rate`) are modelled over `ℝ` (the real-valued reading of
  the floating-point arithmetic), with Rust's `as u64` truncation rendered as
  `Nat.floor` and the `> u64::MAX as f64` guard kept in place.
* The state-machine operations take the price and reward-rate functions as
  explicit parameters `price_fn` / `rate_fn`; the deployed program is the
  instantiation at `calculate_cow_price` / `calculate_reward_rate` (used by
  the `Reachable` relation below).  Token transfers / mints / burns are
  performed by the external custody layer; the embedding records the amounts
  requested (`charged`, `withdrawal`, `minted`, `burned`) and the resulting
  pool balance.
* `Pubkey` values are reduced to `Nat`, with `0` playing the role of
  `Pubkey::default()` (the "farm not yet initialized" sentinel).
-/

set_option maxHeartbeats 1000000

deriving instance DecidableEq for Except

/-- `u64::MAX`. -/
def U64_MAX : Nat := 18446744073709551615

/-- `SECONDS_PER_DAY` (declared `i64` in the source; used as `u64` in
`update_farm_rewards`, so carried as `Nat` here). -/
def SECONDS_PER_DAY : Nat := 86400

/-- `COW_BASE_PRICE`: 6,000 MILK with 6 decimals. -/
def COW_BASE_PRICE : Nat := 6000000000

/-- `PRICE_PIVOT` (`f64` constant, real-valued model). -/
noncomputable def PRICE_PIVOT : ℝ := 3000

/-- `PRICE_STEEPNESS` (`f64` constant, real-valued model). -/
noncomputable def PRICE_STEEPNESS : ℝ := 2

/-- `REWARD_BASE`: 25,000 MILK with 6 decimals. -/
def REWARD_BASE : Nat := 25000000000

/-- `REWARD_SENSITIVITY` (`f64` constant, real-valued model). -/
noncomputable def REWARD_SENSITIVITY : ℝ := 0.5

/-- `TVL_NORMALIZATION` (`f64` constant, real-valued model). -/
noncomputable def TVL_NORMALIZATION : ℝ := 100000000000

/-- `MIN_REWARD_PER_DAY`: 1,000 MILK per day with 6 decimals. -/
def MIN_REWARD_PER_DAY : Nat := 1000000000

/-- `GREED_MULTIPLIER` (`f64` constant, real-valued model). -/
noncomputable def GREED_MULTIPLIER : ℝ := 8

/-- `GREED_DECAY_PIVOT` (`f64` constant, real-valued model). -/
noncomputable def GREED_DECAY_PIVOT : ℝ := 1500

/-- `INITIAL_TVL`: 100M MILK with 6 decimals. -/
def INITIAL_TVL : Nat := 100000000000000

/-- `MAX_COWS_PER_TRANSACTION`. -/
def MAX_COWS_PER_TRANSACTION : Nat := 50

/-- The program's `ErrorCode` enum. -/
inductive ErrorCode where
  | MathOverflow
  | Unauthorized
  | InsufficientRewards
  | NoRewardsAvailable
  | InvalidAmount
  | InvalidMint
  | InvalidOwner
  | InvalidPoolAccount
  | NoFundsToMigrate
  | ExceedsMaxCowsPerTransaction
  | InsufficientCows
  | InvalidCowMint
  deriving DecidableEq, Repr

/-- Rust's `u64::checked_add`. -/
def checked_add (a b : Nat) : Option Nat :=
  if a + b ≤ U64_MAX then some (a + b) else none

/-- Rust's `u64::checked_mul`. -/
def checked_mul (a b : Nat) : Option Nat :=
  if a * b ≤ U64_MAX then some (a * b) else none

/-- Rust's `u64::checked_sub`. -/
def checked_sub (a b : Nat) : Option Nat :=
  if b ≤ a then some (a - b) else none

/-- The `Config` account (ledger identities dropped; `admin`/mint keys are
plumbing with no algorithmic content). -/
structure Config where
  start_time : Int
  global_cows_count : Nat
  initial_tvl : Nat
  deriving DecidableEq, Repr

/-- The `FarmAccount` account.  `owner : Nat` with `0` for
`Pubkey::default()`. -/
structure FarmAccount where
  owner : Nat
  cows : Nat
  last_update_time : Int
  accumulated_rewards : Nat
  last_reward_rate : Nat
  last_withdraw_time : Int
  deriving DecidableEq, Repr

/-- `update_farm_rewards` from the source, parameterized by the reward-rate
function (`rate_fn`; the program uses `calculate_reward_rate`). -/
def update_farm_rewards (rate_fn : Nat → Nat → Except ErrorCode Nat)
    (farm : FarmAccount) (config : Config) (current_time : Int)
    (current_tvl : Nat) : Except ErrorCode FarmAccount :=
  if farm.cows > 0 ∧ current_time > farm.last_update_time then
    let time_elapsed : Nat := (current_time - farm.last_update_time).toNat
    let rate_r : Except ErrorCode Nat :=
      if farm.last_reward_rate = 0 then
        rate_fn config.global_cows_count current_tvl
      else
        Except.ok farm.last_reward_rate
    match rate_r with
    | Except.error e => Except.error e
    | Except.ok reward_rate =>
      let reward_per_cow_per_second := reward_rate / SECONDS_PER_DAY
      match checked_mul farm.cows reward_per_cow_per_second with
      | none => Except.error ErrorCode.MathOverflow
      | some m =>
        match checked_mul m time_elapsed with
        | none => Except.error ErrorCode.MathOverflow
        | some new_rewards =>
          if new_rewards > 0 then
            match checked_add farm.accumulated_rewards new_rewards with
            | none => Except.error ErrorCode.MathOverflow
            | some acc =>
              Except.ok { farm with
                accumulated_rewards := acc, last_update_time := current_time }
          else
            Except.ok { farm with last_update_time := current_time }
  else
    Except.ok { farm with last_update_time := current_time }

/-- `calculate_cow_price` from the source: real-valued model of the `f64`
computation `P(c) = BASE * (1 + (c / PIVOT)^STEEPNESS)`, truncated. -/
noncomputable def calculate_cow_price (global_cows : Nat) :
    Except ErrorCode Nat :=
  if global_cows = 0 then
    Except.ok COW_BASE_PRICE
  else
    let c : ℝ := (global_cows : ℝ)
    let cr : ℝ := c / PRICE_PIVOT
    let power_term : ℝ := if cr = 0 then 0 else cr ^ PRICE_STEEPNESS
    let multiplier : ℝ := 1 + power_term
    let price_f : ℝ := (COW_BASE_PRICE : ℝ) * multiplier
    if price_f > (U64_MAX : ℝ) then Except.error ErrorCode.MathOverflow
    else Except.ok ⌊price_f⌋₊

/-- `calculate_reward_rate` from the source: real-valued model of the `f64`
computation.  Note the `max` with `MIN_REWARD_PER_DAY` is applied *after*
multiplying by the greed multiplier. -/
noncomputable def calculate_reward_rate (global_cows : Nat) (tvl : Nat) :
    Except ErrorCode Nat :=
  if global_cows = 0 then
    Except.ok MIN_REWARD_PER_DAY
  else
    let tvl_f : ℝ := (tvl : ℝ)
    let cows_f : ℝ := (global_cows : ℝ)
    let tvl_per_cow : ℝ := tvl_f / cows_f
    let normalized : ℝ := tvl_per_cow / TVL_NORMALIZATION
    let denominator : ℝ := 1 + REWARD_SENSITIVITY * normalized
    let base_reward : ℝ := (REWARD_BASE : ℝ) / denominator
    let greed_decay : ℝ :=
      if cows_f = 0 then 1 else Real.exp (-cows_f / GREED_DECAY_PIVOT)
    let greed_mult : ℝ := 1 + GREED_MULTIPLIER * greed_decay
    let reward_with_greed : ℝ := base_reward * greed_mult
    let final_reward : ℝ := max reward_with_greed (MIN_REWARD_PER_DAY : ℝ)
    if final_reward > (U64_MAX : ℝ) then Except.error ErrorCode.MathOverflow
    else Except.ok ⌊final_reward⌋₊

/-- The reward-rate formula exactly as the specification writes it:
`rate(c, tvl) = max(B / (1 + s·(tvl/c)/S), Rmin) × (1 + β·e^(−c/C0))`,
i.e. the `Rmin` floor applied *before* the greed multiplier; the configured
minimum at `c = 0`; `MathOverflow` when the real-valued result exceeds the
`u64` range.  Used to compare the specification against the code. -/
noncomputable def spec_reward_rate (c : Nat) (tvl : Nat) :
    Except ErrorCode Nat :=
  if c = 0 then
    Except.ok MIN_REWARD_PER_DAY
  else
    let v : ℝ :=
      max ((REWARD_BASE : ℝ) /
            (1 + REWARD_SENSITIVITY * ((tvl : ℝ) / (c : ℝ)) / TVL_NORMALIZATION))
          (MIN_REWARD_PER_DAY : ℝ) *
        (1 + GREED_MULTIPLIER * Real.exp (-(c : ℝ) / GREED_DECAY_PIVOT))
    if v > (U64_MAX : ℝ) then Except.error ErrorCode.MathOverflow
    else Except.ok ⌊v⌋₊

/-- The reward-rate formula with the `Rmin` floor taken *outside* the greed
multiplication — the amendment of claim C3 forced by the code:
`rate(c, tvl) = max(B / (1 + s·(tvl/c)/S) × (1 + β·e^(−c/C0)), Rmin)`. -/
noncomputable def spec_reward_rate_amended (c : Nat) (tvl : Nat) :
    Except ErrorCode Nat :=
  if c = 0 then
    Except.ok MIN_REWARD_PER_DAY
  else
    let v : ℝ :=
      max ((REWARD_BASE : ℝ) /
            (1 + REWARD_SENSITIVITY * ((tvl : ℝ) / (c : ℝ)) / TVL_NORMALIZATION) *
           (1 + GREED_MULTIPLIER * Real.exp (-(c : ℝ) / GREED_DECAY_PIVOT)))
          (MIN_REWARD_PER_DAY : ℝ)
    if v > (U64_MAX : ℝ) then Except.error ErrorCode.MathOverflow
    else Except.ok ⌊v⌋₊

/-- Result of `buy_cows`: new config and farm, the post-transfer pool
balance, and the amount transferred from the buyer to the pool. -/
structure BuyResult where
  config : Config
  farm : FarmAccount
  pool : Nat
  charged : Nat
  deriving DecidableEq, Repr

/-- `buy_cows` from the source (the MILK transfer itself is external; the
amount requested is recorded in `charged`). -/
def buy_cows (price_fn : Nat → Except ErrorCode Nat)
    (rate_fn : Nat → Nat → Except ErrorCode Nat)
    (config : Config) (farm : FarmAccount) (user : Nat) (current_time : Int)
    (pool_amount : Nat) (num_cows : Nat) : Except ErrorCode BuyResult :=
  if num_cows = 0 then Except.error ErrorCode.InvalidAmount
  else if MAX_COWS_PER_TRANSACTION < num_cows then
    Except.error ErrorCode.ExceedsMaxCowsPerTransaction
  else
    let farm_r : Except ErrorCode FarmAccount :=
      if farm.owner = 0 then
        Except.ok { farm with
          owner := user, cows := 0, last_update_time := current_time,
          accumulated_rewards := 0 }
      else
        update_farm_rewards rate_fn farm config current_time pool_amount
    match farm_r with
    | Except.error e => Except.error e
    | Except.ok farm1 =>
      match price_fn config.global_cows_count with
      | Except.error e => Except.error e
      | Except.ok cost_per_cow =>
        match checked_mul cost_per_cow num_cows with
        | none => Except.error ErrorCode.MathOverflow
        | some total_cost =>
          match checked_add config.global_cows_count num_cows with
          | none => Except.error ErrorCode.MathOverflow
          | some global1 =>
            match checked_add farm1.cows num_cows with
            | none => Except.error ErrorCode.MathOverflow
            | some cows1 =>
              match checked_add pool_amount total_cost with
              | none => Except.error ErrorCode.MathOverflow
              | some new_tvl =>
                match rate_fn global1 new_tvl with
                | Except.error e => Except.error e
                | Except.ok new_reward_rate =>
                  Except.ok {
                    config := { config with global_cows_count := global1 },
                    farm := { farm1 with
                      cows := cows1, last_reward_rate := new_reward_rate },
                    pool := new_tvl,
                    charged := total_cost }

/-- Result of `withdraw_milk`: the (unchanged) config, new farm, new pool
balance, amount transferred to the user, and the penalty retained. -/
structure WithdrawResult where
  config : Config
  farm : FarmAccount
  pool : Nat
  withdrawal : Nat
  penalty : Nat
  deriving DecidableEq, Repr

/-- `withdraw_milk` from the source.  `config` is taken by shared reference
in the source and is returned unchanged. -/
def withdraw_milk (rate_fn : Nat → Nat → Except ErrorCode Nat)
    (config : Config) (farm : FarmAccount) (current_time : Int)
    (pool_amount : Nat) : Except ErrorCode WithdrawResult :=
  match update_farm_rewards rate_fn farm config current_time pool_amount with
  | Except.error e => Except.error e
  | Except.ok farm1 =>
    if farm1.accumulated_rewards = 0 then
      Except.error ErrorCode.NoRewardsAvailable
    else
      let total_rewards := farm1.accumulated_rewards
      let hours_since_last_withdraw : Int :=
        if farm1.last_withdraw_time = 0 then 25
        else Int.tdiv (current_time - farm1.last_withdraw_time) 3600
      let wp : Nat × Nat :=
        if 24 ≤ hours_since_last_withdraw then (total_rewards, 0)
        else (total_rewards / 2, total_rewards - total_rewards / 2)
      let withdrawal_amount := min wp.1 pool_amount
      match checked_sub pool_amount withdrawal_amount with
      | none => Except.error ErrorCode.MathOverflow
      | some new_tvl =>
        match rate_fn config.global_cows_count new_tvl with
        | Except.error e => Except.error e
        | Except.ok new_reward_rate =>
          Except.ok {
            config := config,
            farm := { farm1 with
              last_reward_rate := new_reward_rate,
              accumulated_rewards := 0,
              last_withdraw_time := current_time },
            pool := new_tvl,
            withdrawal := withdrawal_amount,
            penalty := wp.2 }

/-- Result of `compound_cows` (no token movement, pool unchanged). -/
structure CompoundResult where
  config : Config
  farm : FarmAccount
  pool : Nat
  deriving DecidableEq, Repr

/-- `compound_cows` from the source. -/
def compound_cows (price_fn : Nat → Except ErrorCode Nat)
    (rate_fn : Nat → Nat → Except ErrorCode Nat)
    (config : Config) (farm : FarmAccount) (current_time : Int)
    (pool_amount : Nat) (num_cows : Nat) : Except ErrorCode CompoundResult :=
  if num_cows = 0 then Except.error ErrorCode.InvalidAmount
  else
    match update_farm_rewards rate_fn farm config current_time pool_amount with
    | Except.error e => Except.error e
    | Except.ok farm1 =>
      match price_fn config.global_cows_count with
      | Except.error e => Except.error e
      | Except.ok cow_price =>
        match checked_mul cow_price num_cows with
        | none => Except.error ErrorCode.MathOverflow
        | some total_cost =>
          if farm1.accumulated_rewards < total_cost then
            Except.error ErrorCode.InsufficientRewards
          else
            match checked_sub farm1.accumulated_rewards total_cost with
            | none => Except.error ErrorCode.MathOverflow
            | some acc1 =>
              match checked_add config.global_cows_count num_cows with
              | none => Except.error ErrorCode.MathOverflow
              | some global1 =>
                match checked_add farm1.cows num_cows with
                | none => Except.error ErrorCode.MathOverflow
                | some cows1 =>
                  match rate_fn global1 pool_amount with
                  | Except.error e => Except.error e
                  | Except.ok new_reward_rate =>
                    Except.ok {
                      config := { config with global_cows_count := global1 },
                      farm := { farm1 with
                        accumulated_rewards := acc1,
                        cows := cows1,
                        last_reward_rate := new_reward_rate },
                      pool := pool_amount }

/-- Result of `export_cows`: `minted` COW tokens are minted to the caller.
`config` is taken by shared reference in the source and returned
unchanged. -/
structure ExportResult where
  config : Config
  farm : FarmAccount
  pool : Nat
  minted : Nat
  deriving DecidableEq, Repr

/-- `export_cows` from the source. -/
def export_cows (rate_fn : Nat → Nat → Except ErrorCode Nat)
    (config : Config) (farm : FarmAccount) (current_time : Int)
    (pool_amount : Nat) (num_cows : Nat) : Except ErrorCode ExportResult :=
  if num_cows = 0 then Except.error ErrorCode.InvalidAmount
  else
    match update_farm_rewards rate_fn farm config current_time pool_amount with
    | Except.error e => Except.error e
    | Except.ok farm1 =>
      if farm1.cows < num_cows then Except.error ErrorCode.InsufficientCows
      else
        match checked_sub farm1.cows num_cows with
        | none => Except.error ErrorCode.MathOverflow
        | some cows1 =>
          Except.ok {
            config := config,
            farm := { farm1 with cows := cows1 },
            pool := pool_amount,
            minted := num_cows }

/-- Result of `import_cows`: `burned` COW tokens are burned from the
caller. -/
structure ImportResult where
  config : Config
  farm : FarmAccount
  pool : Nat
  burned : Nat
  deriving DecidableEq, Repr

/-- `import_cows` from the source. -/
def import_cows (rate_fn : Nat → Nat → Except ErrorCode Nat)
    (config : Config) (farm : FarmAccount) (user : Nat) (current_time : Int)
    (pool_amount : Nat) (num_cows : Nat) : Except ErrorCode ImportResult :=
  if num_cows = 0 then Except.error ErrorCode.InvalidAmount
  else
    let farm_r : Except ErrorCode FarmAccount :=
      if farm.owner = 0 then
        Except.ok { farm with
          owner := user, cows := 0, last_update_time := current_time,
          accumulated_rewards := 0 }
      else
        update_farm_rewards rate_fn farm config current_time pool_amount
    match farm_r with
    | Except.error e => Except.error e
    | Except.ok farm1 =>
      match checked_add farm1.cows num_cows with
      | none => Except.error ErrorCode.MathOverflow
      | some cows1 =>
        match checked_add config.global_cows_count num_cows with
        | none => Except.error ErrorCode.MathOverflow
        | some global1 =>
          match rate_fn global1 pool_amount with
          | Except.error e => Except.error e
          | Except.ok new_reward_rate =>
            Except.ok {
              config := { config with global_cows_count := global1 },
              farm := { farm1 with
                cows := cows1, last_reward_rate := new_reward_rate },
              pool := pool_amount,
              burned := num_cows }

/-- `v3_migrating` from the source (admin drain): requires a non-empty pool
and transfers the entire pool balance out; the config is untouched. -/
def v3_migrating (config : Config) (pool_amount : Nat) :
    Except ErrorCode (Config × Nat) :=
  if pool_amount = 0 then Except.error ErrorCode.NoFundsToMigrate
  else Except.ok (config, pool_amount)

/-- A freshly allocated (all-zero) `FarmAccount`, as produced by the
ledger's `init_if_needed` before `buy_cows`/`import_cows` fill it in. -/
def initFarm : FarmAccount :=
  { owner := 0, cows := 0, last_update_time := 0, accumulated_rewards := 0,
    last_reward_rate := 0, last_withdraw_time := 0 }

/-- Global state of one farm together with the shared config and pool. -/
structure Sys where
  config : Config
  farm : FarmAccount
  pool : Nat
  deriving DecidableEq, Repr

/-- States of a single farm reachable through the public operations of the
deployed program (price and rate functions instantiated with
`calculate_cow_price` / `calculate_reward_rate`).  `env_step` models actions
of other participants and of the custody layer, which may change the shared
config and pool arbitrarily but never touch this farm's record. -/
inductive Reachable : Sys → Prop where
  | init (t : Int) :
      Reachable ⟨⟨t, 0, INITIAL_TVL⟩, initFarm, 0⟩
  | env_step (s : Sys) (config1 : Config) (pool1 : Nat) :
      Reachable s → Reachable ⟨config1, s.farm, pool1⟩
  | buy_step (s : Sys) (user : Nat) (t : Int) (n : Nat) (out : BuyResult) :
      Reachable s →
      buy_cows calculate_cow_price calculate_reward_rate s.config s.farm
        user t s.pool n = Except.ok out →
      Reachable ⟨out.config, out.farm, out.pool⟩
  | compound_step (s : Sys) (t : Int) (n : Nat) (out : CompoundResult) :
      Reachable s →
      compound_cows calculate_cow_price calculate_reward_rate s.config s.farm
        t s.pool n = Except.ok out →
      Reachable ⟨out.config, out.farm, out.pool⟩
  | withdraw_step (s : Sys) (t : Int) (out : WithdrawResult) :
      Reachable s →
      withdraw_milk calculate_reward_rate s.config s.farm t s.pool =
        Except.ok out →
      Reachable ⟨out.config, out.farm, out.pool⟩
  | export_step (s : Sys) (t : Int) (n : Nat) (out : ExportResult) :
      Reachable s →
      export_cows calculate_reward_rate s.config s.farm t s.pool n =
        Except.ok out →
      Reachable ⟨out.config, out.farm, out.pool⟩
  | import_step (s : Sys) (user : Nat) (t : Int) (n : Nat)
      (out : ImportResult) :
      Reachable s →
      import_cows calculate_reward_rate s.config s.farm user t s.pool n =
        Except.ok out →
      Reachable ⟨out.config, out.farm, out.pool⟩

/-! ### Inversion lemmas for the checked arithmetic -/

theorem checked_add_some {a b c : Nat} (h : checked_add a b = some c) :
    c = a + b ∧ a + b ≤ U64_MAX := by
  unfold checked_add at h
  split at h
  next hle => cases h; exact ⟨rfl, hle⟩
  next => simp at h

theorem checked_mul_some {a b c : Nat} (h : checked_mul a b = some c) :
    c = a * b ∧ a * b ≤ U64_MAX := by
  unfold checked_mul at h
  split at h
  next hle => cases h; exact ⟨rfl, hle⟩
  next => simp at h

theorem checked_sub_some {a b c : Nat} (h : checked_sub a b = some c) :
    c = a - b ∧ b ≤ a := by
  unfold checked_sub at h
  split at h
  next hle => cases h; exact ⟨rfl, hle⟩
  next => simp at h

theorem checked_add_of_le {a b : Nat} (h : a + b ≤ U64_MAX) :
    checked_add a b = some (a + b) := by
  unfold checked_add
  rw [if_pos h]

theorem checked_mul_of_le {a b : Nat} (h : a * b ≤ U64_MAX) :
    checked_mul a b = some (a * b) := by
  unfold checked_mul
  rw [if_pos h]

theorem checked_sub_of_le {a b : Nat} (h : b ≤ a) :
    checked_sub a b = some (a - b) := by
  unfold checked_sub
  rw [if_pos h]

/-! ### Helper lemmas about `update_farm_rewards` -/

theorem update_farm_rewards_noop (rate_fn : Nat → Nat → Except ErrorCode Nat)
    (farm : FarmAccount) (config : Config) (t : Int) (tvl : Nat)
    (h : farm.cows = 0 ∨ t ≤ farm.last_update_time) :
    update_farm_rewards rate_fn farm config t tvl =
      Except.ok { farm with last_update_time := t } := by
  unfold update_farm_rewards
  rw [if_neg]
  rintro ⟨h1, h2⟩
  rcases h with h | h <;> omega

theorem update_farm_rewards_frame {rate_fn : Nat → Nat → Except ErrorCode Nat}
    {farm farm1 : FarmAccount} {config : Config} {t : Int} {tvl : Nat}
    (h : update_farm_rewards rate_fn farm config t tvl = Except.ok farm1) :
    farm1.owner = farm.owner ∧ farm1.cows = farm.cows ∧
    farm1.last_reward_rate = farm.last_reward_rate ∧
    farm1.last_withdraw_time = farm.last_withdraw_time ∧
    farm1.last_update_time = t ∧
    farm.accumulated_rewards ≤ farm1.accumulated_rewards := by
  unfold update_farm_rewards at h
  split at h
  · cases hrr : (if farm.last_reward_rate = 0 then
        rate_fn config.global_cows_count tvl
      else Except.ok farm.last_reward_rate) with
    | error e =>
      rw [hrr] at h
      simp at h
    | ok reward_rate =>
      rw [hrr] at h
      simp only [] at h
      cases hm : checked_mul farm.cows (reward_rate / SECONDS_PER_DAY) with
      | none => rw [hm] at h; simp at h
      | some m =>
        rw [hm] at h
        simp only [] at h
        cases hnr : checked_mul m (t - farm.last_update_time).toNat with
        | none => rw [hnr] at h; simp at h
        | some new_rewards =>
          rw [hnr] at h
          simp only [] at h
          split at h
          · cases hacc : checked_add farm.accumulated_rewards new_rewards with
            | none => rw [hacc] at h; simp at h
            | some acc =>
              rw [hacc] at h
              simp only [Except.ok.injEq] at h
              subst h
              obtain ⟨rfl, -⟩ := checked_add_some hacc
              simp
          · simp only [Except.ok.injEq] at h
            subst h
            simp
  · simp only [Except.ok.injEq] at h
    subst h
    simp

theorem update_farm_rewards_idem {rate_fn : Nat → Nat → Except ErrorCode Nat}
    {farm farm1 : FarmAccount} {config : Config} {t : Int} {tvl : Nat}
    (h : update_farm_rewards rate_fn farm config t tvl = Except.ok farm1) :
    update_farm_rewards rate_fn farm1 config t tvl = Except.ok farm1 := by
  have hlut := (update_farm_rewards_frame h).2.2.2.2.1
  rw [update_farm_rewards_noop rate_fn farm1 config t tvl
    (Or.inr (le_of_eq hlut.symm))]
  congr 1
  cases farm1
  simp_all

theorem update_farm_rewards_formula
    {rate_fn : Nat → Nat → Except ErrorCode Nat}
    {farm farm1 : FarmAccount} {config : Config} {t : Int} {tvl : Nat}
    (hcows : farm.cows ≠ 0) (hrate : farm.last_reward_rate ≠ 0)
    (htime : farm.last_update_time < t)
    (h : update_farm_rewards rate_fn farm config t tvl = Except.ok farm1) :
    farm1.accumulated_rewards =
      farm.accumulated_rewards +
        farm.cows * (farm.last_reward_rate / SECONDS_PER_DAY) *
          (t - farm.last_update_time).toNat := by
  unfold update_farm_rewards at h
  rw [if_pos ⟨Nat.pos_of_ne_zero hcows, htime⟩, if_neg hrate] at h
  simp only [] at h
  cases hm : checked_mul farm.cows (farm.last_reward_rate / SECONDS_PER_DAY)
      with
  | none => rw [hm] at h; simp at h
  | some m =>
    rw [hm] at h
    simp only [] at h
    cases hnr : checked_mul m (t - farm.last_update_time).toNat with
    | none => rw [hnr] at h; simp at h
    | some new_rewards =>
      rw [hnr] at h
      simp only [] at h
      obtain ⟨rfl, -⟩ := checked_mul_some hm
      obtain ⟨rfl, -⟩ := checked_mul_some hnr
      split at h
      · cases hacc : checked_add farm.accumulated_rewards
            (farm.cows * (farm.last_reward_rate / SECONDS_PER_DAY) *
              (t - farm.last_update_time).toNat) with
        | none => rw [hacc] at h; simp at h
        | some acc =>
          rw [hacc] at h
          simp only [Except.ok.injEq] at h
          subst h
          obtain ⟨rfl, -⟩ := checked_add_some hacc
          simp
      next hz =>
        simp only [Except.ok.injEq] at h
        subst h
        simp only [not_lt, Nat.le_zero] at hz
        simp [hz]

/-! ### Bounds on the reward-rate function -/

theorem calculate_reward_rate_bounds (global_cows tvl : Nat) :
    ∃ r, calculate_reward_rate global_cows tvl = Except.ok r ∧
      MIN_REWARD_PER_DAY ≤ r ∧ r ≤ 225000000000 := by
  unfold calculate_reward_rate
  by_cases hc : global_cows = 0
  · rw [if_pos hc]
    refine ⟨MIN_REWARD_PER_DAY, rfl, le_refl _, ?_⟩
    norm_num [MIN_REWARD_PER_DAY]
  · rw [if_neg hc]
    simp only []
    rw [if_neg (Nat.cast_ne_zero.mpr hc)]
    set x : ℝ := Real.exp (-(global_cows : ℝ) / GREED_DECAY_PIVOT) with hxdef
    have hx0 : 0 < x := Real.exp_pos _
    have hx1 : x ≤ 1 := by
      rw [hxdef, Real.exp_le_one_iff, neg_div]
      exact neg_nonpos.mpr (div_nonneg (Nat.cast_nonneg _)
        (by norm_num [GREED_DECAY_PIVOT]))
    set nr : ℝ := (tvl : ℝ) / (global_cows : ℝ) / TVL_NORMALIZATION with hnrdef
    have hnr0 : 0 ≤ nr := by
      rw [hnrdef]
      exact div_nonneg (div_nonneg (Nat.cast_nonneg _) (Nat.cast_nonneg _))
        (by norm_num [TVL_NORMALIZATION])
    have hsens : (0:ℝ) ≤ REWARD_SENSITIVITY := by norm_num [REWARD_SENSITIVITY]
    have hden : (1:ℝ) ≤ 1 + REWARD_SENSITIVITY * nr := by
      have := mul_nonneg hsens hnr0
      linarith
    have hbase0 : (0:ℝ) ≤ (REWARD_BASE : ℝ) / (1 + REWARD_SENSITIVITY * nr) :=
      div_nonneg (Nat.cast_nonneg _) (by linarith)
    have hbase : (REWARD_BASE : ℝ) / (1 + REWARD_SENSITIVITY * nr) ≤
        (REWARD_BASE : ℝ) :=
      div_le_self (Nat.cast_nonneg _) hden
    have hmult1 : (1:ℝ) ≤ 1 + GREED_MULTIPLIER * x := by
      have := mul_nonneg (show (0:ℝ) ≤ GREED_MULTIPLIER by
        norm_num [GREED_MULTIPLIER]) (le_of_lt hx0)
      linarith
    have hmult9 : 1 + GREED_MULTIPLIER * x ≤ 9 := by
      have : GREED_MULTIPLIER * x ≤ 8 * 1 :=
        mul_le_mul (by norm_num [GREED_MULTIPLIER]) hx1 (le_of_lt hx0)
          (by norm_num)
      linarith
    have hrb : ((REWARD_BASE : ℕ) : ℝ) = 25000000000 := by
      norm_num [REWARD_BASE]
    have hrwg : (REWARD_BASE : ℝ) / (1 + REWARD_SENSITIVITY * nr) *
        (1 + GREED_MULTIPLIER * x) ≤ 225000000000 := by
      have h1 : (REWARD_BASE : ℝ) / (1 + REWARD_SENSITIVITY * nr) *
          (1 + GREED_MULTIPLIER * x) ≤ (REWARD_BASE : ℝ) * 9 :=
        mul_le_mul hbase hmult9 (by linarith) (Nat.cast_nonneg _)
      linarith [h1, hrb]
    have hnotof : ¬ (max ((REWARD_BASE : ℝ) / (1 + REWARD_SENSITIVITY * nr) *
        (1 + GREED_MULTIPLIER * x)) ((MIN_REWARD_PER_DAY : ℕ) : ℝ) >
        ((U64_MAX : ℕ) : ℝ)) := by
      push_neg
      apply max_le
      · have hu : ((U64_MAX : ℕ) : ℝ) = 18446744073709551615 := by
          norm_num [U64_MAX]
        rw [hu]
        linarith
      · norm_num [MIN_REWARD_PER_DAY, U64_MAX]
    rw [if_neg hnotof]
    refine ⟨_, rfl, ?_, ?_⟩
    · exact Nat.le_floor (le_max_right _ _)
    · apply Nat.floor_le_of_le
      apply max_le
      · push_cast
        linarith
      · norm_num [MIN_REWARD_PER_DAY]

/-- Rust's truncating `i64` division by 3600 compares to 24 exactly when the
elapsed time reaches 24 hours. -/
theorem tdiv_hours_iff (e : Int) : 24 ≤ Int.tdiv e 3600 ↔ 86400 ≤ e := by
  constructor
  · intro h
    rcases le_or_lt 0 e with he | he
    · have he2 : e = ((e.toNat : ℕ) : Int) := (Int.toNat_of_nonneg he).symm
      have h36 : ((3600 : ℕ) : Int) = 3600 := by norm_num
      rw [he2, ← h36, ← Int.ofNat_tdiv] at h
      have h2 : 24 ≤ e.toNat / 3600 := by exact_mod_cast h
      have h3 := (Nat.le_div_iff_mul_le (show 0 < 3600 by norm_num)).mp h2
      omega
    · exfalso
      have h2 : (0:Int) ≤ -e := by omega
      have h3 := Int.tdiv_nonneg h2 (show (0:Int) ≤ 3600 by norm_num)
      rw [Int.neg_tdiv] at h3
      omega
  · intro h
    have he : (0:Int) ≤ e := by omega
    have he2 : e = ((e.toNat : ℕ) : Int) := (Int.toNat_of_nonneg he).symm
    have h36 : ((3600 : ℕ) : Int) = 3600 := by norm_num
    rw [he2, ← h36, ← Int.ofNat_tdiv]
    have h2 : 86400 ≤ e.toNat := by omega
    have h3 : 24 ≤ e.toNat / 3600 :=
      (Nat.le_div_iff_mul_le (show 0 < 3600 by norm_num)).mpr (by omega)
    exact_mod_cast h3

/-! ### Success inversions for the state-machine operations -/

theorem buy_cows_ok_inv {price_fn : Nat → Except ErrorCode Nat}
    {rate_fn : Nat → Nat → Except ErrorCode Nat}
    {config : Config} {farm : FarmAccount} {user : Nat} {t : Int}
    {pool n : Nat} {out : BuyResult}
    (h : buy_cows price_fn rate_fn config farm user t pool n = Except.ok out) :
    ∃ farm1 cost_per_cow new_rate,
      n ≠ 0 ∧ n ≤ MAX_COWS_PER_TRANSACTION ∧
      (if farm.owner = 0 then
        Except.ok { farm with
          owner := user, cows := 0, last_update_time := t,
          accumulated_rewards := 0 }
      else update_farm_rewards rate_fn farm config t pool) =
        Except.ok farm1 ∧
      price_fn config.global_cows_count = Except.ok cost_per_cow ∧
      cost_per_cow * n ≤ U64_MAX ∧
      config.global_cows_count + n ≤ U64_MAX ∧
      farm1.cows + n ≤ U64_MAX ∧
      pool + cost_per_cow * n ≤ U64_MAX ∧
      rate_fn (config.global_cows_count + n) (pool + cost_per_cow * n) =
        Except.ok new_rate ∧
      out = { config := { config with
                global_cows_count := config.global_cows_count + n },
              farm := { farm1 with
                cows := farm1.cows + n, last_reward_rate := new_rate },
              pool := pool + cost_per_cow * n,
              charged := cost_per_cow * n } := by
  unfold buy_cows at h
  split at h
  · simp at h
  next hn0 =>
    split at h
    · simp at h
    next hcap =>
      cases hfr : (if farm.owner = 0 then
          Except.ok { farm with
            owner := user, cows := 0, last_update_time := t,
            accumulated_rewards := 0 }
        else update_farm_rewards rate_fn farm config t pool) with
      | error e => rw [hfr] at h; simp at h
      | ok farm1 =>
        rw [hfr] at h
        simp only [] at h
        cases hpf : price_fn config.global_cows_count with
        | error e => rw [hpf] at h; simp at h
        | ok cost_per_cow =>
          rw [hpf] at h
          simp only [] at h
          cases hcm : checked_mul cost_per_cow n with
          | none => rw [hcm] at h; simp at h
          | some total_cost =>
            rw [hcm] at h
            simp only [] at h
            obtain ⟨rfl, hcmle⟩ := checked_mul_some hcm
            cases hga : checked_add config.global_cows_count n with
            | none => rw [hga] at h; simp at h
            | some global1 =>
              rw [hga] at h
              simp only [] at h
              obtain ⟨rfl, hgale⟩ := checked_add_some hga
              cases hca : checked_add farm1.cows n with
              | none => rw [hca] at h; simp at h
              | some cows1 =>
                rw [hca] at h
                simp only [] at h
                obtain ⟨rfl, hcale⟩ := checked_add_some hca
                cases hpa : checked_add pool (cost_per_cow * n) with
                | none => rw [hpa] at h; simp at h
                | some new_tvl =>
                  rw [hpa] at h
                  simp only [] at h
                  obtain ⟨rfl, hpale⟩ := checked_add_some hpa
                  cases hrf : rate_fn (config.global_cows_count + n)
                      (pool + cost_per_cow * n) with
                  | error e => rw [hrf] at h; simp at h
                  | ok new_rate =>
                    rw [hrf] at h
                    simp only [Except.ok.injEq] at h
                    subst h
                    exact ⟨farm1, cost_per_cow, new_rate, hn0, by omega,
                      rfl, rfl, hcmle, hgale, hcale, hpale, hrf, rfl⟩

theorem export_cows_ok_inv {rate_fn : Nat → Nat → Except ErrorCode Nat}
    {config : Config} {farm : FarmAccount} {t : Int}
    {pool n : Nat} {out : ExportResult}
    (h : export_cows rate_fn config farm t pool n = Except.ok out) :
    ∃ farm1,
      n ≠ 0 ∧
      update_farm_rewards rate_fn farm config t pool = Except.ok farm1 ∧
      n ≤ farm1.cows ∧
      out = { config := config, farm := { farm1 with cows := farm1.cows - n },
              pool := pool, minted := n } := by
  unfold export_cows at h
  split at h
  · simp at h
  next hn0 =>
    cases hfr : update_farm_rewards rate_fn farm config t pool with
    | error e => rw [hfr] at h; simp at h
    | ok farm1 =>
      rw [hfr] at h
      simp only [] at h
      split at h
      · simp at h
      next hge =>
        cases hcs : checked_sub farm1.cows n with
        | none => rw [hcs] at h; simp at h
        | some cows1 =>
          rw [hcs] at h
          simp only [Except.ok.injEq] at h
          subst h
          obtain ⟨rfl, -⟩ := checked_sub_some hcs
          exact ⟨farm1, hn0, rfl, by omega, rfl⟩

theorem import_cows_ok_inv {rate_fn : Nat → Nat → Except ErrorCode Nat}
    {config : Config} {farm : FarmAccount} {user : Nat} {t : Int}
    {pool n : Nat} {out : ImportResult}
    (h : import_cows rate_fn config farm user t pool n = Except.ok out) :
    ∃ farm1 new_rate,
      n ≠ 0 ∧
      (if farm.owner = 0 then
        Except.ok { farm with
          owner := user, cows := 0, last_update_time := t,
          accumulated_rewards := 0 }
      else update_farm_rewards rate_fn farm config t pool) =
        Except.ok farm1 ∧
      farm1.cows + n ≤ U64_MAX ∧
      config.global_cows_count + n ≤ U64_MAX ∧
      rate_fn (config.global_cows_count + n) pool = Except.ok new_rate ∧
      out = { config := { config with
                global_cows_count := config.global_cows_count + n },
              farm := { farm1 with
                cows := farm1.cows + n, last_reward_rate := new_rate },
              pool := pool, burned := n } := by
  unfold import_cows at h
  split at h
  · simp at h
  next hn0 =>
    cases hfr : (if farm.owner = 0 then
        Except.ok { farm with
          owner := user, cows := 0, last_update_time := t,
          accumulated_rewards := 0 }
      else update_farm_rewards rate_fn farm config t pool) with
    | error e => rw [hfr] at h; simp at h
    | ok farm1 =>
      rw [hfr] at h
      simp only [] at h
      cases hca : checked_add farm1.cows n with
      | none => rw [hca] at h; simp at h
      | some cows1 =>
        rw [hca] at h
        simp only [] at h
        obtain ⟨rfl, hcale⟩ := checked_add_some hca
        cases hga : checked_add config.global_cows_count n with
        | none => rw [hga] at h; simp at h
        | some global1 =>
          rw [hga] at h
          simp only [] at h
          obtain ⟨rfl, hgale⟩ := checked_add_some hga
          cases hrf : rate_fn (config.global_cows_count + n) pool with
          | error e => rw [hrf] at h; simp at h
          | ok new_rate =>
            rw [hrf] at h
            simp only [Except.ok.injEq] at h
            subst h
            exact ⟨farm1, new_rate, hn0, rfl, hcale, hgale, rfl, rfl⟩

theorem compound_cows_ok_inv {price_fn : Nat → Except ErrorCode Nat}
    {rate_fn : Nat → Nat → Except ErrorCode Nat}
    {config : Config} {farm : FarmAccount} {t : Int}
    {pool n : Nat} {out : CompoundResult}
    (h : compound_cows price_fn rate_fn config farm t pool n =
      Except.ok out) :
    ∃ farm1 cow_price new_rate,
      n ≠ 0 ∧
      update_farm_rewards rate_fn farm config t pool = Except.ok farm1 ∧
      price_fn config.global_cows_count = Except.ok cow_price ∧
      cow_price * n ≤ U64_MAX ∧
      cow_price * n ≤ farm1.accumulated_rewards ∧
      config.global_cows_count + n ≤ U64_MAX ∧
      farm1.cows + n ≤ U64_MAX ∧
      rate_fn (config.global_cows_count + n) pool = Except.ok new_rate ∧
      out = { config := { config with
                global_cows_count := config.global_cows_count + n },
              farm := { farm1 with
                accumulated_rewards := farm1.accumulated_rewards - cow_price * n, cows := farm1.cows + n, last_reward_rate := new_rate },
              pool := pool } := by
  unfold compound_cows at h
  split at h
  · simp at h
  next hn0 =>
    cases hfr : update_farm_rewards rate_fn farm config t pool with
    | error e => rw [hfr] at h; simp at h
    | ok farm1 =>
      rw [hfr] at h
      simp only [] at h
      cases hpf : price_fn config.global_cows_count with
      | error e => rw [hpf] at h; simp at h
      | ok cow_price =>
        rw [hpf] at h
        simp only [] at h
        cases hcm : checked_mul cow_price n with
        | none => rw [hcm] at h; simp at h
        | some total_cost =>
          rw [hcm] at h
          simp only [] at h
          obtain ⟨rfl, hcmle⟩ := checked_mul_some hcm
          split at h
          · simp at h
          next hge =>
            cases hcs : checked_sub farm1.accumulated_rewards
                (cow_price * n) with
            | none => rw [hcs] at h; simp at h
            | some acc1 =>
              rw [hcs] at h
              simp only [] at h
              obtain ⟨rfl, -⟩ := checked_sub_some hcs
              cases hga : checked_add config.global_cows_count n with
              | none => rw [hga] at h; simp at h
              | some global1 =>
                rw [hga] at h
                simp only [] at h
                obtain ⟨rfl, hgale⟩ := checked_add_some hga
                cases hca : checked_add farm1.cows n with
                | none => rw [hca] at h; simp at h
                | some cows1 =>
                  rw [hca] at h
                  simp only [] at h
                  obtain ⟨rfl, hcale⟩ := checked_add_some hca
                  cases hrf : rate_fn (config.global_cows_count + n) pool with
                  | error e => rw [hrf] at h; simp at h
                  | ok new_rate =>
                    rw [hrf] at h
                    simp only [Except.ok.injEq] at h
                    subst h
                    exact ⟨farm1, cow_price, new_rate, hn0, rfl, rfl,
                      hcmle, by omega, hgale, hcale, rfl, rfl⟩

theorem compound_cows_insufficient {price_fn : Nat → Except ErrorCode Nat}
    {rate_fn : Nat → Nat → Except ErrorCode Nat}
    {config : Config} {farm farm1 : FarmAccount} {t : Int}
    {pool n cow_price : Nat}
    (hn : n ≠ 0)
    (hupd : update_farm_rewards rate_fn farm config t pool = Except.ok farm1)
    (hpf : price_fn config.global_cows_count = Except.ok cow_price)
    (hmul : cow_price * n ≤ U64_MAX)
    (hlt : farm1.accumulated_rewards < cow_price * n) :
    compound_cows price_fn rate_fn config farm t pool n =
      Except.error ErrorCode.InsufficientRewards := by
  unfold compound_cows
  rw [if_neg hn, hupd]
  simp only []
  rw [hpf]
  simp only []
  rw [checked_mul_of_le hmul]
  simp only []
  rw [if_pos hlt]

theorem compound_cows_error_iff {price_fn : Nat → Except ErrorCode Nat}
    {rate_fn : Nat → Nat → Except ErrorCode Nat}
    {config : Config} {farm farm1 : FarmAccount} {t : Int}
    {pool n cow_price : Nat}
    (hrf_ne : ∀ c tv, rate_fn c tv ≠ Except.error ErrorCode.InsufficientRewards)
    (hn : n ≠ 0)
    (hupd : update_farm_rewards rate_fn farm config t pool = Except.ok farm1)
    (hpf : price_fn config.global_cows_count = Except.ok cow_price)
    (hmul : cow_price * n ≤ U64_MAX) :
    compound_cows price_fn rate_fn config farm t pool n =
      Except.error ErrorCode.InsufficientRewards ↔
    farm1.accumulated_rewards < cow_price * n := by
  constructor
  · intro h
    by_contra hge
    push_neg at hge
    unfold compound_cows at h
    rw [if_neg hn, hupd] at h
    simp only [] at h
    rw [hpf] at h
    simp only [] at h
    rw [checked_mul_of_le hmul] at h
    simp only [] at h
    rw [if_neg (not_lt.mpr hge), checked_sub_of_le hge] at h
    simp only [] at h
    cases hga : checked_add config.global_cows_count n with
    | none => rw [hga] at h; simp at h
    | some global1 =>
      rw [hga] at h
      simp only [] at h
      cases hca : checked_add farm1.cows n with
      | none => rw [hca] at h; simp at h
      | some cows1 =>
        rw [hca] at h
        simp only [] at h
        cases hrf : rate_fn global1 pool with
        | error e =>
          rw [hrf] at h
          simp only [Except.error.injEq] at h
          exact hrf_ne global1 pool (h ▸ hrf)
        | ok new_rate => rw [hrf] at h; simp at h
  · intro hlt
    exact compound_cows_insufficient hn hupd hpf hmul hlt

theorem withdraw_milk_ok_inv {rate_fn : Nat → Nat → Except ErrorCode Nat}
    {config : Config} {farm : FarmAccount} {t : Int} {pool : Nat}
    {out : WithdrawResult}
    (h : withdraw_milk rate_fn config farm t pool = Except.ok out) :
    ∃ farm1 new_rate,
      update_farm_rewards rate_fn farm config t pool = Except.ok farm1 ∧
      farm1.accumulated_rewards ≠ 0 ∧
      ((farm1.last_withdraw_time = 0 ∨ 86400 ≤ t - farm1.last_withdraw_time) →
        out.withdrawal = min farm1.accumulated_rewards pool ∧
        out.penalty = 0) ∧
      (farm1.last_withdraw_time ≠ 0 ∧ t - farm1.last_withdraw_time < 86400 →
        out.withdrawal = min (farm1.accumulated_rewards / 2) pool ∧
        out.penalty = farm1.accumulated_rewards -
          farm1.accumulated_rewards / 2) ∧
      out.pool = pool - out.withdrawal ∧
      out.config = config ∧
      rate_fn config.global_cows_count (pool - out.withdrawal) =
        Except.ok new_rate ∧
      out.farm = { farm1 with
        last_reward_rate := new_rate, accumulated_rewards := 0, last_withdraw_time := t } := by
  unfold withdraw_milk at h
  cases hfr : update_farm_rewards rate_fn farm config t pool with
  | error e => rw [hfr] at h; simp at h
  | ok farm1 =>
    rw [hfr] at h
    simp only [] at h
    split at h
    · simp at h
    next hacc =>
      have hcond : (24 ≤ (if farm1.last_withdraw_time = 0 then (25:Int)
          else Int.tdiv (t - farm1.last_withdraw_time) 3600)) ↔
          (farm1.last_withdraw_time = 0 ∨
            86400 ≤ t - farm1.last_withdraw_time) := by
        by_cases h0 : farm1.last_withdraw_time = 0
        · simp [h0]
        · simp [h0, tdiv_hours_iff]
      by_cases hfree : farm1.last_withdraw_time = 0 ∨
          86400 ≤ t - farm1.last_withdraw_time
      · rw [if_pos (hcond.mpr hfree)] at h
        simp only [] at h
        rw [checked_sub_of_le (min_le_right _ pool)] at h
        simp only [] at h
        cases hrf : rate_fn config.global_cows_count
            (pool - min farm1.accumulated_rewards pool) with
        | error e => rw [hrf] at h; simp at h
        | ok new_rate =>
          rw [hrf] at h
          simp only [Except.ok.injEq] at h
          subst h
          refine ⟨farm1, new_rate, rfl, hacc, fun _ => ⟨rfl, rfl⟩, ?_, rfl,
            rfl, hrf, rfl⟩
          intro hpen
          obtain ⟨h1, h2⟩ := hpen
          rcases hfree with h0 | hge <;> omega
      · rw [if_neg (fun hc => hfree (hcond.mp hc))] at h
        simp only [] at h
        rw [checked_sub_of_le (min_le_right _ pool)] at h
        simp only [] at h
        cases hrf : rate_fn config.global_cows_count
            (pool - min (farm1.accumulated_rewards / 2) pool) with
        | error e => rw [hrf] at h; simp at h
        | ok new_rate =>
          rw [hrf] at h
          simp only [Except.ok.injEq] at h
          subst h
          refine ⟨farm1, new_rate, rfl, hacc, ?_, fun _ => ⟨rfl, rfl⟩, rfl,
            rfl, hrf, rfl⟩
          intro hp
          exact absurd hp hfree

/-! ### Price-curve lemmas -/

theorem calculate_cow_price_zero :
    calculate_cow_price 0 = Except.ok COW_BASE_PRICE := by
  unfold calculate_cow_price
  rw [if_pos rfl]

theorem calculate_cow_price_ok_value {c p : Nat} (hc : c ≠ 0)
    (h : calculate_cow_price c = Except.ok p) :
    p = ⌊(COW_BASE_PRICE : ℝ) *
        (1 + ((c : ℝ) / PRICE_PIVOT) ^ PRICE_STEEPNESS)⌋₊ := by
  unfold calculate_cow_price at h
  rw [if_neg hc] at h
  simp only [] at h
  rw [if_neg (div_ne_zero (Nat.cast_ne_zero.mpr hc)
    (show (PRICE_PIVOT : ℝ) ≠ 0 by norm_num [PRICE_PIVOT]))] at h
  split at h
  · simp at h
  · simp only [Except.ok.injEq] at h
    exact h.symm

theorem calculate_cow_price_mono {c1 c2 p1 p2 : Nat} (hle : c1 ≤ c2)
    (h1 : calculate_cow_price c1 = Except.ok p1)
    (h2 : calculate_cow_price c2 = Except.ok p2) : p1 ≤ p2 := by
  by_cases hc2 : c2 = 0
  · have hc1 : c1 = 0 := by omega
    subst hc1
    subst hc2
    rw [calculate_cow_price_zero] at h1 h2
    cases h1
    cases h2
    exact le_refl _
  · by_cases hc1 : c1 = 0
    · subst hc1
      rw [calculate_cow_price_zero] at h1
      cases h1
      have hp2 := calculate_cow_price_ok_value hc2 h2
      subst hp2
      apply Nat.le_floor
      have hpow : (0:ℝ) ≤ ((c2 : ℝ) / PRICE_PIVOT) ^ PRICE_STEEPNESS :=
        Real.rpow_nonneg (div_nonneg (Nat.cast_nonneg _)
          (by norm_num [PRICE_PIVOT])) _
      have hbase : (0:ℝ) ≤ (COW_BASE_PRICE : ℝ) := Nat.cast_nonneg _
      nlinarith
    · have hp1 := calculate_cow_price_ok_value hc1 h1
      have hp2 := calculate_cow_price_ok_value hc2 h2
      subst hp1
      subst hp2
      apply Nat.floor_le_floor
      have hpiv : (0:ℝ) < PRICE_PIVOT := by norm_num [PRICE_PIVOT]
      have hr1 : (0:ℝ) ≤ (c1 : ℝ) / PRICE_PIVOT :=
        div_nonneg (Nat.cast_nonneg _) (le_of_lt hpiv)
      have hrr : (c1 : ℝ) / PRICE_PIVOT ≤ (c2 : ℝ) / PRICE_PIVOT :=
        (div_le_div_right hpiv).mpr (Nat.cast_le.mpr hle)
      have hpow := Real.rpow_le_rpow hr1 hrr
        (show (0:ℝ) ≤ PRICE_STEEPNESS by norm_num [PRICE_STEEPNESS])
      have hbase : (0:ℝ) ≤ (COW_BASE_PRICE : ℝ) := Nat.cast_nonneg _
      nlinarith

theorem calculate_cow_price_at_pivot :
    calculate_cow_price 3000 = Except.ok 12000000000 := by
  unfold calculate_cow_price
  rw [if_neg (by norm_num)]
  simp only []
  have hcr : ((3000 : ℕ) : ℝ) / PRICE_PIVOT = 1 := by
    norm_num [PRICE_PIVOT]
  rw [hcr, if_neg (one_ne_zero), Real.one_rpow]
  have hval : (COW_BASE_PRICE : ℝ) * (1 + 1) = ((12000000000 : ℕ) : ℝ) := by
    norm_num [COW_BASE_PRICE]
  rw [hval]
  rw [if_neg (by push_cast; norm_num [U64_MAX])]
  rw [Nat.floor_natCast]

/-! ### Evaluations of the two reward-rate formulas at c = 1500,
tvl = 10^18 (the point separating the spec formula from the code) -/

theorem calculate_reward_rate_at_cex :
    calculate_reward_rate 1500 1000000000000000000 =
      Except.ok MIN_REWARD_PER_DAY := by
  unfold calculate_reward_rate
  rw [if_neg (by norm_num)]
  simp only []
  rw [if_neg (show ((1500 : ℕ) : ℝ) ≠ 0 by norm_num)]
  set x : ℝ := Real.exp (-((1500 : ℕ) : ℝ) / GREED_DECAY_PIVOT) with hxdef
  have hx0 : 0 < x := Real.exp_pos _
  have hx1 : x ≤ 1 := by
    rw [hxdef, Real.exp_le_one_iff, neg_div]
    exact neg_nonpos.mpr (div_nonneg (by norm_num)
      (by norm_num [GREED_DECAY_PIVOT]))
  have hnr : ((1000000000000000000 : ℕ) : ℝ) / ((1500 : ℕ) : ℝ) /
      TVL_NORMALIZATION = 20000 / 3 := by
    norm_num [TVL_NORMALIZATION]
  rw [hnr]
  have hrwg_le : (REWARD_BASE : ℝ) /
      (1 + REWARD_SENSITIVITY * (20000 / 3)) * (1 + GREED_MULTIPLIER * x) ≤
      ((MIN_REWARD_PER_DAY : ℕ) : ℝ) := by
    have e1 : (REWARD_BASE : ℝ) / (1 + REWARD_SENSITIVITY * (20000 / 3)) =
        75000000000 / 10003 := by
      norm_num [REWARD_BASE, REWARD_SENSITIVITY]
    have e2 : ((MIN_REWARD_PER_DAY : ℕ) : ℝ) = 1000000000 := by
      norm_num [MIN_REWARD_PER_DAY]
    have e3 : (GREED_MULTIPLIER : ℝ) = 8 := by norm_num [GREED_MULTIPLIER]
    rw [e1, e2, e3]
    linarith
  rw [max_eq_right hrwg_le]
  rw [if_neg (by norm_num [MIN_REWARD_PER_DAY, U64_MAX])]
  rw [Nat.floor_natCast]

theorem spec_reward_rate_at_cex :
    ∃ m, spec_reward_rate 1500 1000000000000000000 = Except.ok m ∧
      2000000000 ≤ m := by
  unfold spec_reward_rate
  rw [if_neg (by norm_num)]
  simp only []
  set x : ℝ := Real.exp (-((1500 : ℕ) : ℝ) / GREED_DECAY_PIVOT) with hxdef
  have hx0 : 0 < x := Real.exp_pos _
  have hx1 : x ≤ 1 := by
    rw [hxdef, Real.exp_le_one_iff, neg_div]
    exact neg_nonpos.mpr (div_nonneg (by norm_num)
      (by norm_num [GREED_DECAY_PIVOT]))
  have hx8 : (1 : ℝ) / 8 ≤ x := by
    have harg : -((1500 : ℕ) : ℝ) / GREED_DECAY_PIVOT = -1 := by
      norm_num [GREED_DECAY_PIVOT]
    rw [hxdef, harg, show (-1 : ℝ) = -(1 : ℝ) by norm_num, Real.exp_neg]
    have hy0 : (0 : ℝ) < Real.exp 1 := Real.exp_pos 1
    have hylt : Real.exp 1 < 2.7182818286 := Real.exp_one_lt_d9
    have hinv : Real.exp 1 * (Real.exp 1)⁻¹ = 1 :=
      mul_inv_cancel₀ (ne_of_gt hy0)
    nlinarith
  have e1 : (REWARD_BASE : ℝ) / (1 + REWARD_SENSITIVITY *
      (((1000000000000000000 : ℕ) : ℝ) / ((1500 : ℕ) : ℝ)) /
      TVL_NORMALIZATION) = 75000000000 / 10003 := by
    norm_num [REWARD_BASE, REWARD_SENSITIVITY, TVL_NORMALIZATION]
  rw [e1]
  have hmaxeq : max ((75000000000 : ℝ) / 10003) ((MIN_REWARD_PER_DAY : ℕ) : ℝ)
      = ((MIN_REWARD_PER_DAY : ℕ) : ℝ) := by
    apply max_eq_right
    norm_num [MIN_REWARD_PER_DAY]
  rw [hmaxeq]
  have e2 : ((MIN_REWARD_PER_DAY : ℕ) : ℝ) = 1000000000 := by
    norm_num [MIN_REWARD_PER_DAY]
  have e3 : (GREED_MULTIPLIER : ℝ) = 8 := by norm_num [GREED_MULTIPLIER]
  have hnoof : ¬ (((MIN_REWARD_PER_DAY : ℕ) : ℝ) *
      (1 + GREED_MULTIPLIER * x) > ((U64_MAX : ℕ) : ℝ)) := by
    push_neg
    rw [e2, e3]
    have hu : ((U64_MAX : ℕ) : ℝ) = 18446744073709551615 := by
      norm_num [U64_MAX]
    rw [hu]
    nlinarith
  rw [if_neg hnoof]
  refine ⟨_, rfl, ?_⟩
  apply Nat.le_floor
  rw [e2, e3]
  push_cast
  nlinarith

/-- The code's reward rate agrees everywhere with the spec formula amended
to apply the `Rmin` floor after the greed multiplier. -/
theorem reward_rate_eq_amended (c tvl : Nat) :
    calculate_reward_rate c tvl = spec_reward_rate_amended c tvl := by
  unfold calculate_reward_rate spec_reward_rate_amended
  by_cases hc : c = 0
  · rw [if_pos hc, if_pos hc]
  · rw [if_neg hc, if_neg hc]
    simp only []
    rw [if_neg (Nat.cast_ne_zero.mpr hc)]
    have hval : (REWARD_BASE : ℝ) /
        (1 + REWARD_SENSITIVITY * ((tvl : ℝ) / (c : ℝ) / TVL_NORMALIZATION)) *
        (1 + GREED_MULTIPLIER * Real.exp (-(c : ℝ) / GREED_DECAY_PIVOT)) =
        (REWARD_BASE : ℝ) /
        (1 + REWARD_SENSITIVITY * ((tvl : ℝ) / (c : ℝ)) / TVL_NORMALIZATION) *
        (1 + GREED_MULTIPLIER * Real.exp (-(c : ℝ) / GREED_DECAY_PIVOT)) := by
      ring
    rw [hval]

/-! ### The recompute branch of settlement (cached rate = 0) -/

theorem update_farm_rewards_recompute
    {rate_fn : Nat → Nat → Except ErrorCode Nat}
    {farm farm1 : FarmAccount} {config : Config} {t : Int} {tvl r : Nat}
    (hcows : farm.cows ≠ 0) (hrate : farm.last_reward_rate = 0)
    (htime : farm.last_update_time < t)
    (hr : rate_fn config.global_cows_count tvl = Except.ok r)
    (h : update_farm_rewards rate_fn farm config t tvl = Except.ok farm1) :
    farm1.accumulated_rewards =
      farm.accumulated_rewards +
        farm.cows * (r / SECONDS_PER_DAY) *
          (t - farm.last_update_time).toNat := by
  unfold update_farm_rewards at h
  rw [if_pos ⟨Nat.pos_of_ne_zero hcows, htime⟩, if_pos hrate, hr] at h
  simp only [] at h
  cases hm : checked_mul farm.cows (r / SECONDS_PER_DAY) with
  | none => rw [hm] at h; simp at h
  | some m =>
    rw [hm] at h
    simp only [] at h
    cases hnr : checked_mul m (t - farm.last_update_time).toNat with
    | none => rw [hnr] at h; simp at h
    | some new_rewards =>
      rw [hnr] at h
      simp only [] at h
      obtain ⟨rfl, -⟩ := checked_mul_some hm
      obtain ⟨rfl, -⟩ := checked_mul_some hnr
      split at h
      · cases hacc : checked_add farm.accumulated_rewards
            (farm.cows * (r / SECONDS_PER_DAY) *
              (t - farm.last_update_time).toNat) with
        | none => rw [hacc] at h; simp at h
        | some acc =>
          rw [hacc] at h
          simp only [Except.ok.injEq] at h
          subst h
          obtain ⟨rfl, -⟩ := checked_add_some hacc
          simp
      next hz =>
        simp only [Except.ok.injEq] at h
        subst h
        simp only [not_lt, Nat.le_zero] at hz
        simp [hz]

theorem update_farm_rewards_recompute_ok
    {rate_fn : Nat → Nat → Except ErrorCode Nat}
    {farm : FarmAccount} {config : Config} {t : Int} {tvl r : Nat}
    (hcows : farm.cows ≠ 0) (hrate : farm.last_reward_rate = 0)
    (htime : farm.last_update_time < t)
    (hr : rate_fn config.global_cows_count tvl = Except.ok r)
    (h1 : farm.cows * (r / SECONDS_PER_DAY) ≤ U64_MAX)
    (h2 : farm.cows * (r / SECONDS_PER_DAY) *
      (t - farm.last_update_time).toNat ≤ U64_MAX)
    (h3 : farm.accumulated_rewards + farm.cows * (r / SECONDS_PER_DAY) *
      (t - farm.last_update_time).toNat ≤ U64_MAX) :
    ∃ farm1, update_farm_rewards rate_fn farm config t tvl =
      Except.ok farm1 := by
  unfold update_farm_rewards
  rw [if_pos ⟨Nat.pos_of_ne_zero hcows, htime⟩, if_pos hrate, hr]
  simp only []
  rw [checked_mul_of_le h1]
  simp only []
  rw [checked_mul_of_le h2]
  simp only []
  split
  · rw [checked_add_of_le h3]
    exact ⟨_, rfl⟩
  · exact ⟨_, rfl⟩

/-- Fixture config: one cow sold globally. -/
def cexConfig : Config :=
  { start_time := 0, global_cows_count := 1, initial_tvl := INITIAL_TVL }

/-- Fixture farm: one cow, zero cached rate (the state the spec's settlement
formula reads as "adds zero"). -/
def cexFarm : FarmAccount :=
  { owner := 7, cows := 1, last_update_time := 0, accumulated_rewards := 0,
    last_reward_rate := 0, last_withdraw_time := 0 }

theorem update_cex :
    ∃ farm1, update_farm_rewards calculate_reward_rate cexFarm cexConfig
      86400 0 = Except.ok farm1 ∧ farm1.accumulated_rewards ≠ 0 := by
  obtain ⟨r, hr, hmin, hmax⟩ :=
    calculate_reward_rate_bounds cexConfig.global_cows_count 0
  have hS : SECONDS_PER_DAY = 86400 := rfl
  have hrps1 : 1 ≤ r / SECONDS_PER_DAY := by
    rw [hS]
    apply (Nat.le_div_iff_mul_le (by norm_num)).mpr
    simp only [MIN_REWARD_PER_DAY] at hmin
    omega
  have hrps2 : r / SECONDS_PER_DAY ≤ U64_MAX := by
    have h := Nat.div_le_self r SECONDS_PER_DAY
    simp only [U64_MAX]
    omega
  have hc1 : cexFarm.cows = 1 := rfl
  have hel : ((86400 : Int) - cexFarm.last_update_time).toNat = 86400 := by
    decide
  have ha0 : cexFarm.accumulated_rewards = 0 := rfl
  have h1 : cexFarm.cows * (r / SECONDS_PER_DAY) ≤ U64_MAX := by
    rw [hc1, one_mul]
    exact hrps2
  have h2 : cexFarm.cows * (r / SECONDS_PER_DAY) *
      ((86400 : Int) - cexFarm.last_update_time).toNat ≤ U64_MAX := by
    rw [hc1, one_mul, hel, hS]
    have hd := Nat.div_mul_le_self r 86400
    simp only [U64_MAX]
    omega
  have h3 : cexFarm.accumulated_rewards + cexFarm.cows *
      (r / SECONDS_PER_DAY) *
      ((86400 : Int) - cexFarm.last_update_time).toNat ≤ U64_MAX := by
    rw [ha0, Nat.zero_add]
    exact h2
  obtain ⟨farm1, hok⟩ := update_farm_rewards_recompute_ok
    (show cexFarm.cows ≠ 0 by decide) rfl (by decide) hr h1 h2 h3
  have hacc := update_farm_rewards_recompute
    (show cexFarm.cows ≠ 0 by decide) rfl (by decide) hr hok
  refine ⟨farm1, hok, ?_⟩
  rw [hacc, hc1, one_mul, hel, ha0, Nat.zero_add]
  omega

theorem import_cex :
    ∃ out : ImportResult,
      import_cows calculate_reward_rate
        (⟨0, 0, INITIAL_TVL⟩ : Config) initFarm 7 0 0 1 = Except.ok out ∧
      out.farm.cows = 1 := by
  obtain ⟨r, hr, -, -⟩ := calculate_reward_rate_bounds 1 0
  unfold import_cows
  rw [if_neg (by norm_num)]
  simp only [initFarm, if_true]
  rw [checked_add_of_le (by norm_num [U64_MAX])]
  simp only [Nat.zero_add]
  rw [hr]
  exact ⟨_, rfl, rfl⟩

/-! ### Concrete fixtures used by the claim witnesses -/

/-- A simple computable price function for witnesses. -/
def pf0 : Nat → Except ErrorCode Nat := fun g => Except.ok (6000 + g)

/-- A simple computable reward-rate function for witnesses (never fails). -/
def rf0 : Nat → Nat → Except ErrorCode Nat :=
  fun c tvl => Except.ok (c + tvl + 1)

/-- The spec's worked settlement example: 10 cows, cached rate 864000. -/
def c1Farm : FarmAccount :=
  { owner := 3, cows := 10, last_update_time := 0, accumulated_rewards := 0,
    last_reward_rate := 864000, last_withdraw_time := 0 }

/-- The result of the C2 witness withdrawal. -/
def c2Out : WithdrawResult :=
  { config := cexConfig,
    farm := { owner := 3, cows := 0, last_update_time := 3600,
              accumulated_rewards := 0, last_reward_rate := 999752,
              last_withdraw_time := 3600 },
    pool := 999750, withdrawal := 250, penalty := 250 }

/-- A farm with settled rewards and a recent withdrawal. -/
def c2Farm : FarmAccount :=
  { owner := 3, cows := 0, last_update_time := 0, accumulated_rewards := 500,
    last_reward_rate := 7, last_withdraw_time := 10 }

/-- A farm with few rewards (for the compound precondition). -/
def c5Farm : FarmAccount :=
  { owner := 3, cows := 1, last_update_time := 5, accumulated_rewards := 100,
    last_reward_rate := 7, last_withdraw_time := 0 }

/-- A farm with five cows (for the bridge operations). -/
def c8Farm : FarmAccount :=
  { owner := 3, cows := 5, last_update_time := 0, accumulated_rewards := 0,
    last_reward_rate := 7, last_withdraw_time := 0 }

/-! ### Claim C1 -/

/-- C1 (counterexample): the claim quantifies over *every* farm with
`unitCount > 0`, but on a farm whose cached rate is zero the code recomputes
the rate via `calculate_reward_rate` (which is at least the configured
minimum) instead of accruing `unitCount × (0 / 86400) × elapsed = 0`; so the
result is not the unchanged-rewards record the claimed formula dictates. -/
theorem c1_counterexample :
    update_farm_rewards calculate_reward_rate cexFarm cexConfig 86400 0 ≠
      Except.ok { cexFarm with last_update_time := 86400 } := by
  obtain ⟨farm1, hok, hne⟩ := update_cex
  rw [hok]
  intro heq
  simp only [Except.ok.injEq] at heq
  exact hne (by rw [heq]; rfl)

/-- C1 (amended): for every farm with `unitCount > 0`, a *nonzero* cached
rate, and `now > lastUpdateTime`, settlement adds to `accumulatedRewards`
exactly `unitCount × (cachedRate / 86400) × (now − lastUpdateTime)`, with
integer division rounding toward zero and every multiplication
overflow-checked (a failed check aborts with no accrual). -/
theorem c1_settlement_formula
    (rate_fn : Nat → Nat → Except ErrorCode Nat)
    (farm farm1 : FarmAccount) (config : Config) (t : Int) (tvl : Nat)
    (hcows : farm.cows ≠ 0) (hrate : farm.last_reward_rate ≠ 0)
    (htime : farm.last_update_time < t)
    (h : update_farm_rewards rate_fn farm config t tvl = Except.ok farm1) :
    farm1.accumulated_rewards =
      farm.accumulated_rewards +
        farm.cows * (farm.last_reward_rate / SECONDS_PER_DAY) *
          (t - farm.last_update_time).toNat :=
  update_farm_rewards_formula hcows hrate htime h

/-- C1 witness: the spec's worked example — 10 cows, cached rate 864000,
3600 elapsed seconds — accrues exactly 360000. -/
theorem c1_settlement_formula_witness :
    ∃ farm1, update_farm_rewards rf0 c1Farm cexConfig 3600 0 =
      Except.ok farm1 ∧ farm1.accumulated_rewards = 360000 := by
  have hok : update_farm_rewards rf0 c1Farm cexConfig 3600 0 =
      Except.ok { c1Farm with
                  accumulated_rewards := 360000,
                  last_update_time := 3600 } := by decide
  have hval := c1_settlement_formula rf0 c1Farm _ cexConfig 3600 0
    (by decide) (by decide) (by decide) hok
  refine ⟨_, hok, ?_⟩
  rw [hval]
  decide

/-! ### Claim C2 -/

/-- C2: for every successful Withdraw whose settled balance is nonzero —
if `lastWithdrawTime = 0` or at least 24 hours (86400 s) have passed since
the last withdrawal, the payout is the full settled total; otherwise it is
exactly `⌊total/2⌋` with the remaining `total − ⌊total/2⌋` recorded as the
penalty retained by the pool; in both cases the transferred amount is capped
at the pool balance (the `min`), and the pool drops by exactly the amount
transferred. -/
theorem c2_withdraw_penalty
    (rate_fn : Nat → Nat → Except ErrorCode Nat) (config : Config)
    (farm farm1 : FarmAccount) (t : Int) (pool : Nat) (out : WithdrawResult)
    (hupd : update_farm_rewards rate_fn farm config t pool = Except.ok farm1)
    (htot : farm1.accumulated_rewards ≠ 0)
    (hok : withdraw_milk rate_fn config farm t pool = Except.ok out) :
    ((farm.last_withdraw_time = 0 ∨ 86400 ≤ t - farm.last_withdraw_time) →
      out.withdrawal = min farm1.accumulated_rewards pool ∧
      out.penalty = 0) ∧
    ((farm.last_withdraw_time ≠ 0 ∧ t - farm.last_withdraw_time < 86400) →
      out.withdrawal = min (farm1.accumulated_rewards / 2) pool ∧
      out.penalty = farm1.accumulated_rewards -
        farm1.accumulated_rewards / 2) ∧
    out.pool = pool - out.withdrawal := by
  obtain ⟨farm1', nr, hupd', hne', hfree, hpen, hpool, -, -, -⟩ :=
    withdraw_milk_ok_inv hok
  rw [hupd] at hupd'
  simp only [Except.ok.injEq] at hupd'
  subst hupd'
  have hlwt := (update_farm_rewards_frame hupd).2.2.2.1
  rw [hlwt] at hfree hpen
  exact ⟨hfree, hpen, hpool⟩

/-- C2 witness: a second withdrawal 3590 seconds after the previous one pays
out `⌊500/2⌋ = 250` and retains 250 in the pool. -/
theorem c2_withdraw_penalty_witness :
    ∃ out, withdraw_milk rf0 cexConfig c2Farm 3600 1000000 =
      Except.ok out ∧ out.withdrawal = 250 ∧ out.penalty = 250 ∧
      out.pool = 999750 := by
  have hupd : update_farm_rewards rf0 c2Farm cexConfig 3600 1000000 =
      Except.ok { c2Farm with last_update_time := 3600 } := by decide
  have hok : withdraw_milk rf0 cexConfig c2Farm 3600 1000000 =
      Except.ok c2Out := by decide
  obtain ⟨-, hpen, hpool⟩ := c2_withdraw_penalty rf0 cexConfig c2Farm _
    3600 1000000 _ hupd (by decide) hok
  obtain ⟨hw, hp⟩ := hpen (by decide)
  refine ⟨_, hok, ?_, ?_, ?_⟩
  · rw [hw]; decide
  · rw [hp]; decide
  · rw [hpool, hw]; decide

/-! ### Claim C6 -/

/-- C6 (counterexample): on a farm with no units, settling at a later `now`
does *not* leave the farm state unchanged — `lastUpdateTime` is advanced to
`now` unconditionally. -/
theorem c6_counterexample :
    update_farm_rewards calculate_reward_rate initFarm cexConfig 100 0 ≠
      Except.ok initFarm := by
  rw [update_farm_rewards_noop calculate_reward_rate initFarm cexConfig 100 0
    (Or.inl rfl)]
  intro heq
  simp only [Except.ok.injEq] at heq
  have := congrArg FarmAccount.last_update_time heq
  simp [initFarm] at this

/-- C6 (amended): when `unitCount = 0` or `now ≤ lastUpdateTime`, settlement
leaves every field except `lastUpdateTime` unchanged (in particular
`accumulatedRewards` is unchanged) and merely sets `lastUpdateTime := now`;
consequently settling twice in immediate succession with `now` unchanged is
exactly idempotent: the second settlement returns the first result
verbatim. -/
theorem c6_settlement_noop
    (rate_fn : Nat → Nat → Except ErrorCode Nat) (farm : FarmAccount)
    (config : Config) (t : Int) (tvl : Nat) :
    ((farm.cows = 0 ∨ t ≤ farm.last_update_time) →
      update_farm_rewards rate_fn farm config t tvl =
        Except.ok { farm with last_update_time := t }) ∧
    (∀ farm1, update_farm_rewards rate_fn farm config t tvl =
        Except.ok farm1 →
      update_farm_rewards rate_fn farm1 config t tvl = Except.ok farm1) :=
  ⟨fun h => update_farm_rewards_noop rate_fn farm config t tvl h,
   fun _ h => update_farm_rewards_idem h⟩

/-- C6 witness: settling an empty farm advances only `lastUpdateTime`, and
re-settling at the same instant returns the same record. -/
theorem c6_settlement_noop_witness :
    update_farm_rewards rf0 initFarm cexConfig 100 0 =
      Except.ok { initFarm with last_update_time := 100 } ∧
    update_farm_rewards rf0 { initFarm with last_update_time := 100 }
      cexConfig 100 0 =
      Except.ok { initFarm with last_update_time := 100 } := by
  have h := c6_settlement_noop rf0 initFarm cexConfig 100 0
  have h1 := h.1 (Or.inl rfl)
  exact ⟨h1, h.2 _ h1⟩

/-! ### Claim C3 -/

/-- C3 (counterexample): at `c = 1500`, `tvl = 10^18` the code returns
exactly the configured minimum (the TVL term crushes the base reward and the
floor is applied *after* the greed multiplier), while the spec's formula —
floor applied *before* the greed multiplier — yields at least
`2 × 10^9 > Rmin`.  So the code does not equal the spec's formula. -/
theorem c3_counterexample :
    calculate_reward_rate 1500 1000000000000000000 ≠
      spec_reward_rate 1500 1000000000000000000 := by
  obtain ⟨m, hm, hge⟩ := spec_reward_rate_at_cex
  rw [calculate_reward_rate_at_cex, hm]
  intro h
  simp only [Except.ok.injEq, MIN_REWARD_PER_DAY] at h
  omega

/-- C3 (amended): the reward-rate function equals the spec's definition with
the minimum applied *after* the greed multiplier:
`rate(c, tvl) = max(B / (1 + s·(tvl/c)/S) × (1 + β·e^(−c/C0)), Rmin)`
truncated to an integer, returning the configured minimum at `c = 0` and
failing with `MathOverflow` if the real-valued result exceeds the `u64`
range. -/
theorem c3_rate_matches_amended_spec (c tvl : Nat) :
    calculate_reward_rate c tvl = spec_reward_rate_amended c tvl :=
  reward_rate_eq_amended c tvl

/-! ### Claim C4 -/

/-- C4: Buy(0) fails with `InvalidAmount`; Buy(n) for `n > 50` fails with
the per-transaction-cap error; every successful Buy(n) charges exactly
`price(g) × n` computed once at the pre-purchase global count `g`, and
re-caches the reward rate computed from the post-purchase global count
`g + n` and the post-purchase pool balance `pool + charged`. -/
theorem c4_buy (price_fn : Nat → Except ErrorCode Nat)
    (rate_fn : Nat → Nat → Except ErrorCode Nat) (config : Config)
    (farm : FarmAccount) (user : Nat) (t : Int) (pool n : Nat) :
    (n = 0 → buy_cows price_fn rate_fn config farm user t pool n =
      Except.error ErrorCode.InvalidAmount) ∧
    (MAX_COWS_PER_TRANSACTION < n →
      buy_cows price_fn rate_fn config farm user t pool n =
        Except.error ErrorCode.ExceedsMaxCowsPerTransaction) ∧
    (∀ out, buy_cows price_fn rate_fn config farm user t pool n =
        Except.ok out →
      ∃ cost_per_cow new_rate,
        price_fn config.global_cows_count = Except.ok cost_per_cow ∧
        out.charged = cost_per_cow * n ∧
        out.config.global_cows_count = config.global_cows_count + n ∧
        out.pool = pool + out.charged ∧
        rate_fn (config.global_cows_count + n) (pool + out.charged) =
          Except.ok new_rate ∧
        out.farm.last_reward_rate = new_rate) := by
  refine ⟨?_, ?_, ?_⟩
  · intro hn
    subst hn
    unfold buy_cows
    rw [if_pos rfl]
  · intro hgt
    unfold buy_cows
    rw [if_neg (by omega), if_pos hgt]
  · intro out hok
    obtain ⟨farm1, p, r, -, -, -, hpf, -, -, -, -, hrf, hout⟩ :=
      buy_cows_ok_inv hok
    subst hout
    exact ⟨p, r, hpf, rfl, rfl, rfl, hrf, rfl⟩

/-- C4 witness: with a concrete price function, Buy(0) and Buy(51) fail with
the stated errors and Buy(2) at global count 1 charges `6001 × 2`. -/
theorem c4_buy_witness :
    buy_cows pf0 rf0 cexConfig initFarm 9 5 1000 0 =
      Except.error ErrorCode.InvalidAmount ∧
    buy_cows pf0 rf0 cexConfig initFarm 9 5 1000 51 =
      Except.error ErrorCode.ExceedsMaxCowsPerTransaction ∧
    ∃ out, buy_cows pf0 rf0 cexConfig initFarm 9 5 1000 2 =
      Except.ok out ∧ out.charged = 12002 := by
  refine ⟨(c4_buy pf0 rf0 cexConfig initFarm 9 5 1000 0).1 rfl,
    (c4_buy pf0 rf0 cexConfig initFarm 9 5 1000 51).2.1 (by decide), ?_⟩
  have hok : buy_cows pf0 rf0 cexConfig initFarm 9 5 1000 2 =
      Except.ok { config := { start_time := 0, global_cows_count := 3,
                              initial_tvl := INITIAL_TVL },
                  farm := { owner := 9, cows := 2, last_update_time := 5,
                            accumulated_rewards := 0,
                            last_reward_rate := 13006,
                            last_withdraw_time := 0 },
                  pool := 13002, charged := 12002 } := by decide
  obtain ⟨p, r, hpf, hch, -, -, -, -⟩ :=
    (c4_buy pf0 rf0 cexConfig initFarm 9 5 1000 2).2.2 _ hok
  have hp : p = 6001 := by
    simp only [pf0, cexConfig, Except.ok.injEq] at hpf
    omega
  refine ⟨_, hok, ?_⟩
  rw [hch, hp]

/-! ### Claim C5 -/

/-- C5: for Compound(n) with `n > 0`, given the settled farm, a priced cow
cost, and a representable total cost, the operation fails with
`InsufficientRewards` exactly when the settled `accumulatedRewards` is below
`price × n`; on success the settled rewards decrease by exactly `price × n`
(`out.farm.accumulatedRewards + price × n = settled rewards`, so they never
go negative). -/
theorem c5_compound (price_fn : Nat → Except ErrorCode Nat)
    (rate_fn : Nat → Nat → Except ErrorCode Nat) (config : Config)
    (farm farm1 : FarmAccount) (t : Int) (pool n cow_price : Nat)
    (hrf_ne : ∀ c tv, rate_fn c tv ≠
      Except.error ErrorCode.InsufficientRewards)
    (hn : n ≠ 0)
    (hupd : update_farm_rewards rate_fn farm config t pool = Except.ok farm1)
    (hpf : price_fn config.global_cows_count = Except.ok cow_price)
    (hmul : cow_price * n ≤ U64_MAX) :
    (compound_cows price_fn rate_fn config farm t pool n =
        Except.error ErrorCode.InsufficientRewards ↔
      farm1.accumulated_rewards < cow_price * n) ∧
    (∀ out, compound_cows price_fn rate_fn config farm t pool n =
        Except.ok out →
      cow_price * n ≤ farm1.accumulated_rewards ∧
      out.farm.accumulated_rewards + cow_price * n =
        farm1.accumulated_rewards) := by
  refine ⟨compound_cows_error_iff hrf_ne hn hupd hpf hmul, ?_⟩
  intro out hok
  obtain ⟨farm1', p', r', -, hupd', hpf', -, hle', -, -, -, hout⟩ :=
    compound_cows_ok_inv hok
  rw [hupd] at hupd'
  rw [hpf] at hpf'
  simp only [Except.ok.injEq] at hupd' hpf'
  subst hupd'
  subst hpf'
  subst hout
  refine ⟨hle', ?_⟩
  show farm1.accumulated_rewards - cow_price * n + cow_price * n =
    farm1.accumulated_rewards
  exact Nat.sub_add_cancel hle'

/-- C5 witness: compounding one cow priced at 6001 against 100 settled
rewards fails with `InsufficientRewards`. -/
theorem c5_compound_witness :
    compound_cows pf0 rf0 cexConfig c5Farm 5 1000 1 =
      Except.error ErrorCode.InsufficientRewards := by
  have h := c5_compound pf0 rf0 cexConfig c5Farm c5Farm 5 1000 1 6001
    (fun c tv => by simp [rf0]) (by norm_num) (by decide) (by decide)
    (by norm_num [U64_MAX])
  exact h.1.mpr (by decide)

/-! ### Claim C7 -/

/-- C7: the pricing curve returns exactly the configured base price at
`globalUnitCount = 0`, and (after rounding down to the integer token unit)
is non-decreasing: whenever both `price c1` and `price c2` succeed with
`c1 ≤ c2`, the first price is at most the second. -/
theorem c7_price_curve :
    calculate_cow_price 0 = Except.ok COW_BASE_PRICE ∧
    ∀ c1 c2 p1 p2, c1 ≤ c2 →
      calculate_cow_price c1 = Except.ok p1 →
      calculate_cow_price c2 = Except.ok p2 → p1 ≤ p2 :=
  ⟨calculate_cow_price_zero, fun _ _ _ _ => calculate_cow_price_mono⟩

/-- C7 witness: `price 0 = 6000×10^6` and it is below `price 3000 =
12000×10^6` (the pivot point, where the multiplier is exactly 2). -/
theorem c7_price_curve_witness :
    calculate_cow_price 0 = Except.ok COW_BASE_PRICE ∧
    COW_BASE_PRICE ≤ 12000000000 :=
  ⟨c7_price_curve.1,
   c7_price_curve.2 0 3000 COW_BASE_PRICE 12000000000 (by norm_num)
     c7_price_curve.1 calculate_cow_price_at_pivot⟩

/-! ### Claim C8 -/

/-- C8: a successful Export(n) decreases `farm.unitCount` by exactly `n`,
mints `n` COW tokens, and leaves the config (hence `globalUnitCount`), the
farm owner, the cached rate and the last-withdraw time unchanged (only the
settlement fields may move); a successful Import(n) increases both
`farm.unitCount` and `globalUnitCount` by exactly `n` and burns `n` COW
tokens.  (For Import the hypothesis says an uninitialized farm record is
zeroed, which the ledger guarantees.) -/
theorem c8_export_import (rate_fn : Nat → Nat → Except ErrorCode Nat)
    (config : Config) (farm : FarmAccount) (user : Nat) (t : Int)
    (pool n : Nat) (hinit : farm.owner = 0 → farm.cows = 0) :
    (∀ out, export_cows rate_fn config farm t pool n = Except.ok out →
      out.farm.cows + n = farm.cows ∧
      out.minted = n ∧
      out.config = config ∧
      out.farm.owner = farm.owner ∧
      out.farm.last_reward_rate = farm.last_reward_rate ∧
      out.farm.last_withdraw_time = farm.last_withdraw_time) ∧
    (∀ out, import_cows rate_fn config farm user t pool n = Except.ok out →
      out.farm.cows = farm.cows + n ∧
      out.config.global_cows_count = config.global_cows_count + n ∧
      out.burned = n) := by
  constructor
  · intro out hok
    obtain ⟨farm1, hn0, hupd, hge, hout⟩ := export_cows_ok_inv hok
    obtain ⟨how, hcw, hrt, hlw, -, -⟩ := update_farm_rewards_frame hupd
    subst hout
    refine ⟨?_, rfl, rfl, ?_, ?_, ?_⟩
    · show farm1.cows - n + n = farm.cows
      rw [Nat.sub_add_cancel hge, hcw]
    · show farm1.owner = farm.owner
      exact how
    · show farm1.last_reward_rate = farm.last_reward_rate
      exact hrt
    · show farm1.last_withdraw_time = farm.last_withdraw_time
      exact hlw
  · intro out hok
    obtain ⟨farm1, r, hn0, hfr, -, -, hrf, hout⟩ := import_cows_ok_inv hok
    subst hout
    refine ⟨?_, rfl, rfl⟩
    show farm1.cows + n = farm.cows + n
    congr 1
    by_cases how : farm.owner = 0
    · rw [if_pos how] at hfr
      simp only [Except.ok.injEq] at hfr
      rw [← hfr]
      exact (hinit how).symm
    · rw [if_neg how] at hfr
      exact (update_farm_rewards_frame hfr).2.1

/-- C8 witness: exporting 2 of 5 cows leaves 3 and mints 2; importing 2
onto the same farm yields 7 cows and raises the global count from 1 to 3. -/
theorem c8_export_import_witness :
    ∃ oute outi,
      export_cows rf0 cexConfig c8Farm 0 50 2 = Except.ok oute ∧
      oute.farm.cows = 3 ∧ oute.minted = 2 ∧
      import_cows rf0 cexConfig c8Farm 3 0 50 2 = Except.ok outi ∧
      outi.farm.cows = 7 ∧ outi.config.global_cows_count = 3 := by
  have hoke : export_cows rf0 cexConfig c8Farm 0 50 2 =
      Except.ok { config := cexConfig,
                  farm := { owner := 3, cows := 3, last_update_time := 0,
                            accumulated_rewards := 0, last_reward_rate := 7,
                            last_withdraw_time := 0 },
                  pool := 50, minted := 2 } := by decide
  have hoki : import_cows rf0 cexConfig c8Farm 3 0 50 2 =
      Except.ok { config := { start_time := 0, global_cows_count := 3,
                              initial_tvl := INITIAL_TVL },
                  farm := { owner := 3, cows := 7, last_update_time := 0,
                            accumulated_rewards := 0, last_reward_rate := 54,
                            last_withdraw_time := 0 },
                  pool := 50, burned := 2 } := by decide
  obtain ⟨he, hi⟩ := c8_export_import rf0 cexConfig c8Farm 3 0 50 2
    (by decide)
  obtain ⟨h1, h2, -, -, -, -⟩ := he _ hoke
  obtain ⟨h3, h4, -⟩ := hi _ hoki
  have hc : c8Farm.cows = 5 := rfl
  have hg : cexConfig.global_cows_count = 1 := rfl
  refine ⟨_, _, hoke, by omega, h2, hoki, by omega, by omega⟩

/-! ### Claim C9 -/

/-- C9: no operation decreases `config.global_cows_count`: Buy, Compound
and Import increase it by `n`, Withdraw, Export and the admin drain leave
it unchanged — every successful transition leaves it equal or larger. -/
theorem c9_global_monotone (price_fn : Nat → Except ErrorCode Nat)
    (rate_fn : Nat → Nat → Except ErrorCode Nat) (config : Config)
    (farm : FarmAccount) (user : Nat) (t : Int) (pool n : Nat) :
    (∀ out, buy_cows price_fn rate_fn config farm user t pool n =
        Except.ok out →
      config.global_cows_count ≤ out.config.global_cows_count) ∧
    (∀ out, compound_cows price_fn rate_fn config farm t pool n =
        Except.ok out →
      config.global_cows_count ≤ out.config.global_cows_count) ∧
    (∀ out, withdraw_milk rate_fn config farm t pool = Except.ok out →
      config.global_cows_count ≤ out.config.global_cows_count) ∧
    (∀ out, export_cows rate_fn config farm t pool n = Except.ok out →
      config.global_cows_count ≤ out.config.global_cows_count) ∧
    (∀ out, import_cows rate_fn config farm user t pool n = Except.ok out →
      config.global_cows_count ≤ out.config.global_cows_count) ∧
    (∀ cfg1 amt, v3_migrating config pool = Except.ok (cfg1, amt) →
      config.global_cows_count ≤ cfg1.global_cows_count) := by
  refine ⟨?_, ?_, ?_, ?_, ?_, ?_⟩
  · intro out hok
    obtain ⟨farm1, p, r, -, -, -, -, -, -, -, -, -, hout⟩ :=
      buy_cows_ok_inv hok
    subst hout
    exact Nat.le_add_right _ _
  · intro out hok
    obtain ⟨farm1, p, r, -, -, -, -, -, -, -, -, hout⟩ :=
      compound_cows_ok_inv hok
    subst hout
    exact Nat.le_add_right _ _
  · intro out hok
    obtain ⟨farm1, r, -, -, -, -, -, hcfg, -, -⟩ := withdraw_milk_ok_inv hok
    rw [hcfg]
  · intro out hok
    obtain ⟨farm1, -, -, -, hout⟩ := export_cows_ok_inv hok
    subst hout
    exact le_refl _
  · intro out hok
    obtain ⟨farm1, r, -, -, -, -, -, hout⟩ := import_cows_ok_inv hok
    subst hout
    exact Nat.le_add_right _ _
  · intro cfg1 amt h
    unfold v3_migrating at h
    split at h
    · simp at h
    · simp only [Except.ok.injEq, Prod.mk.injEq] at h
      rw [← h.1]

/-- C9 witness: a concrete Buy(2) raises the global count from 1 to 3, and
the monotonicity theorem applies to it. -/
theorem c9_global_monotone_witness :
    ∃ out, buy_cows pf0 rf0 cexConfig initFarm 9 5 1000 2 =
      Except.ok out ∧
      cexConfig.global_cows_count ≤ out.config.global_cows_count := by
  have hok : buy_cows pf0 rf0 cexConfig initFarm 9 5 1000 2 =
      Except.ok { config := { start_time := 0, global_cows_count := 3,
                              initial_tvl := INITIAL_TVL },
                  farm := { owner := 9, cows := 2, last_update_time := 5,
                            accumulated_rewards := 0,
                            last_reward_rate := 13006,
                            last_withdraw_time := 0 },
                  pool := 13002, charged := 12002 } := by decide
  exact ⟨_, hok,
    (c9_global_monotone pf0 rf0 cexConfig initFarm 9 5 1000 2).1 _ hok⟩

/-! ### Claim C10 -/

theorem calculate_reward_rate_ok_min {c tvl r : Nat}
    (h : calculate_reward_rate c tvl = Except.ok r) :
    MIN_REWARD_PER_DAY ≤ r := by
  obtain ⟨r1, hr1, hmin, -⟩ := calculate_reward_rate_bounds c tvl
  rw [h] at hr1
  simp only [Except.ok.injEq] at hr1
  subst hr1
  exact hmin

theorem calculate_reward_rate_ok_ne_zero {c tvl r : Nat}
    (h : calculate_reward_rate c tvl = Except.ok r) : r ≠ 0 := by
  have hmin := calculate_reward_rate_ok_min h
  simp only [MIN_REWARD_PER_DAY] at hmin
  omega

/-- C10: `calculate_reward_rate` always succeeds with a value of at least
`MIN_REWARD_PER_DAY` (1000 MILK/day), and consequently in every state of the
deployed program reachable through the public operations, a farm holding
units has a nonzero cached rate — so the settlement branch that recomputes
the rate when the cache is zero can never fire for such farms. -/
theorem c10_min_rate_and_nonzero_cache :
    (∀ c tvl, ∃ r, calculate_reward_rate c tvl = Except.ok r ∧
      MIN_REWARD_PER_DAY ≤ r) ∧
    (∀ s, Reachable s → s.farm.cows ≠ 0 → s.farm.last_reward_rate ≠ 0) := by
  constructor
  · intro c tvl
    obtain ⟨r, hr, hmin, -⟩ := calculate_reward_rate_bounds c tvl
    exact ⟨r, hr, hmin⟩
  · intro s hs
    induction hs with
    | init t => intro h; exact absurd rfl h
    | env_step s cfg1 pool1 hs ih => exact ih
    | buy_step s user t n out hs hok ih =>
      obtain ⟨farm1, p, r, -, -, -, -, -, -, -, -, hrf, hout⟩ :=
        buy_cows_ok_inv hok
      subst hout
      intro hcows
      show r ≠ 0
      exact calculate_reward_rate_ok_ne_zero hrf
    | compound_step s t n out hs hok ih =>
      obtain ⟨farm1, p, r, -, -, -, -, -, -, -, hrf, hout⟩ :=
        compound_cows_ok_inv hok
      subst hout
      intro hcows
      show r ≠ 0
      exact calculate_reward_rate_ok_ne_zero hrf
    | withdraw_step s t out hs hok ih =>
      obtain ⟨farm1, r, -, -, -, -, -, -, hrf, hfarm⟩ :=
        withdraw_milk_ok_inv hok
      intro hcows
      show out.farm.last_reward_rate ≠ 0
      rw [hfarm]
      show r ≠ 0
      exact calculate_reward_rate_ok_ne_zero hrf
    | export_step s t n out hs hok ih =>
      obtain ⟨farm1, hn0, hupd, hge, hout⟩ := export_cows_ok_inv hok
      obtain ⟨-, hcw, hrt, -, -, -⟩ := update_farm_rewards_frame hupd
      subst hout
      intro hcows
      show farm1.last_reward_rate ≠ 0
      rw [hrt]
      apply ih
      rw [← hcw]
      omega
    | import_step s user t n out hs hok ih =>
      obtain ⟨farm1, r, -, -, -, -, hrf, hout⟩ := import_cows_ok_inv hok
      subst hout
      intro hcows
      show r ≠ 0
      exact calculate_reward_rate_ok_ne_zero hrf

/-- C10 witness: a reachable state with one cow (obtained by importing one
COW token into a fresh farm) has a nonzero cached rate. -/
theorem c10_min_rate_witness :
    ∃ s : Sys, Reachable s ∧ s.farm.cows ≠ 0 ∧
      s.farm.last_reward_rate ≠ 0 := by
  obtain ⟨out, hok, hcows⟩ := import_cex
  have hs1 : Reachable ⟨out.config, out.farm, out.pool⟩ :=
    Reachable.import_step ⟨⟨0, 0, INITIAL_TVL⟩, initFarm, 0⟩ 7 0 1 out
      (Reachable.init 0) hok
  have hc : (⟨out.config, out.farm, out.pool⟩ : Sys).farm.cows ≠ 0 := by
    show out.farm.cows ≠ 0
    omega
  exact ⟨_, hs1, hc, c10_min_rate_and_nonzero_cache.2 _ hs1 hc⟩
